import Mathlib

/-!
Shallow embedding of `ESCPdriver.py`, a host-side ESC/P driver for 9-pin
dot-matrix printers over an emulated parallel port.

Byte-sequence producing methods are modelled as Lean functions returning the
list of values they hand to `putchar`; the handshake loop inside `putchar`
is modelled as a recursive function consuming an explicit oracle of status
polls and operator resume/abort decisions.  The source runs under Python 2
integer semantics, so `/` is floor division and `%` the nonnegative
remainder on the operands that occur; these map to `Nat` (or `Int` `ediv`
and `emod`) below.
-/

namespace ESCP

/-- ASCII `LF` (`ESCPdriver.py` line 35). -/
def LF : Nat := 10

/-- ASCII `CR` (`ESCPdriver.py` line 38). -/
def CR : Nat := 13

/-- ASCII `ESC` (`ESCPdriver.py` line 52). -/
def ESC : Nat := 27

/-- Snapshot of the printer status pins as produced by `status()`
(`ESCPdriver.py` lines 125-135); each field is the corresponding bit of
the GPIOB input register, `true` meaning the pin reads 1. -/
structure Status where
  ack : Bool
  busy : Bool
  paperEnd : Bool
  select : Bool
  error : Bool
  deriving DecidableEq

/-- Decode the GPIOB input register into a status snapshot, mirroring
`status()`: field k is `(valB >> k) % 2` for the pin's bit index. -/
def statusOfByte (valB : Nat) : Status :=
  { ack := (valB >>> 1) % 2 == 1
    busy := (valB >>> 2) % 2 == 1
    paperEnd := (valB >>> 3) % 2 == 1
    select := (valB >>> 4) % 2 == 1
    error := (valB >>> 6) % 2 == 1 }

/-- Outcome of one iteration of the wait-ready polling loop inside
`putchar` (`ESCPdriver.py` lines 105-123). -/
inductive Readiness where
  | fault
  | ready
  | wait
  deriving DecidableEq

/-- One iteration of the polling loop body (`ESCPdriver.py` lines
107-123): the fault test `stt['PAPEREND'] == 1 or stt['SELECT'] == 0 or
stt['ERROR'] == 0` is checked first; otherwise `stt['BUSY'] == 0 and
stt['ACK'] == 1` yields ready; otherwise the loop polls again. -/
def classify (stt : Status) : Readiness :=
  if stt.paperEnd || !stt.select || !stt.error then .fault
  else if !stt.busy && stt.ack then .ready
  else .wait

/-- C1: for every 5-bit printer status snapshot, the wait-ready loop
classifies the status as Fault iff `paperEnd` is true or `select` is
false or `error` is false, and advances to the next byte (Ready) exactly
when `busy` is false, `ack` is true, and no fault condition holds. -/
theorem classify_fault_ready :
    ∀ a b p s e : Bool,
      (classify ⟨a, b, p, s, e⟩ = .fault ↔ (p = true ∨ s = false ∨ e = false)) ∧
      (classify ⟨a, b, p, s, e⟩ = .ready ↔
        (b = false ∧ a = true ∧ ¬(p = true ∨ s = false ∨ e = false))) := by
  decide

/-- `set_rel_hor_pos(n)` (`ESCPdriver.py` lines 230-242): emits
`ESC '\' nl nh` where for `n < 0` the pair is
`(32768 - ((-n) % 256), 32768 - ((-n) / 256))` and otherwise
`(n % 256, n / 256)` (Python 2 floor division). -/
def set_rel_hor_pos (n : Int) : List Int :=
  if n < 0 then [27, 92, 32768 - (-n) % 256, 32768 - (-n) / 256]
  else [27, 92, n % 256, n / 256]

/-- Inverse decoding of the low/high pair emitted by `set_rel_hor_pos`,
applying the documented 32768 offset on the negative branch (which is
recognisable because there the low value always exceeds 255). -/
def decode_rel_hor (nl nh : Int) : Int :=
  if 255 < nl then -((32768 - nl) + 256 * (32768 - nh))
  else nl + 256 * nh

/-- C2: for `-16384 ≤ n ≤ 16384`, `set_rel_hor_pos` emits `ESC '\'`
followed by the low/high pair given by the documented formulas (for
`n ≥ 0` the pair `(n % 256, n / 256)`, for `n < 0` the pair
`(32768 - (|n| % 256), 32768 - (|n| / 256))`), and decoding that pair
with the documented 32768 offset recovers `n` exactly. -/
theorem rel_hor_pos_roundtrip (n : Int) (h1 : -16384 ≤ n) (h2 : n ≤ 16384) :
    (set_rel_hor_pos n).take 2 = [27, 92] ∧
    (set_rel_hor_pos n).getD 2 0 =
      (if n < 0 then 32768 - (-n) % 256 else n % 256) ∧
    (set_rel_hor_pos n).getD 3 0 =
      (if n < 0 then 32768 - (-n) / 256 else n / 256) ∧
    decode_rel_hor ((set_rel_hor_pos n).getD 2 0) ((set_rel_hor_pos n).getD 3 0) = n := by
  by_cases hn : n < 0
  · simp only [set_rel_hor_pos, decode_rel_hor, if_pos hn, List.take, List.getD,
      List.get?, Option.getD]
    refine ⟨trivial, trivial, trivial, ?_⟩
    rw [if_pos (by omega)]
    omega
  · simp only [set_rel_hor_pos, decode_rel_hor, if_neg hn, List.take, List.getD,
      List.get?, Option.getD]
    refine ⟨trivial, trivial, trivial, ?_⟩
    rw [if_neg (by omega)]
    omega

/-- Witness: the roundtrip theorem applied at the concrete input `-300`. -/
theorem rel_hor_pos_roundtrip_witness :
    (set_rel_hor_pos (-300)).take 2 = [27, 92] ∧
    (set_rel_hor_pos (-300)).getD 2 0 =
      (if (-300 : Int) < 0 then 32768 - (-(-300 : Int)) % 256 else (-300 : Int) % 256) ∧
    (set_rel_hor_pos (-300)).getD 3 0 =
      (if (-300 : Int) < 0 then 32768 - (-(-300 : Int)) / 256 else (-300 : Int) / 256) ∧
    decode_rel_hor ((set_rel_hor_pos (-300)).getD 2 0) ((set_rel_hor_pos (-300)).getD 3 0) = -300 :=
  rel_hor_pos_roundtrip (-300) (by decide) (by decide)

/-- `set_page_length_lines(n)` (`ESCPdriver.py` lines 161-166): the pair
is (bytes handed to `putchar`, console messages printed).  The method
body is the single call `putchar(ESC, ord('C'), n)`. -/
def set_page_length_lines (n : Nat) : List Nat × List String :=
  ([27, 67, n], [])

/-- `set_justification(justification)` (`ESCPdriver.py` lines 306-325):
maps the four known strings to `putchar(ESC, ord('a'), n)` and, on any
other string, prints a diagnostic and returns without transmitting. -/
def set_justification (j : String) : List Nat × List String :=
  if j = "left" then ([27, 97, 0], [])
  else if j = "right" then ([27, 97, 2], [])
  else if j = "center" then ([27, 97, 1], [])
  else if j = "full" then ([27, 97, 3], [])
  else ([], ["Error: " ++ j ++ " invalid justification value."])

/-- C3 counterexample: `set_page_length_lines 200` (outside the
documented 1..127) transmits `ESC 'C' 200` instead of failing before
transmission, and `set_justification "justify"` prints a diagnostic and
returns normally instead of returning a failure. -/
theorem codec_no_validation_cex :
    set_page_length_lines 200 = ([27, 67, 200], []) ∧
    (set_page_length_lines 200).1 ≠ [] ∧
    set_justification "justify" =
      ([], ["Error: justify invalid justification value."]) ∧
    (set_justification "justify").2 ≠ [] := by
  refine ⟨rfl, by decide, ?_, ?_⟩ <;> simp [set_justification]

/-- C3 amended: the codec operations perform no argument validation:
`set_page_length_lines n` transmits `ESC 'C' n` for every `n` (including
out-of-range values) with no diagnostic, and `set_justification` on any
string other than the four recognised ones transmits nothing and prints
a diagnostic message naming the argument, returning normally. -/
theorem codec_unvalidated_behavior :
    (∀ n : Nat, set_page_length_lines n = ([27, 67, n], [])) ∧
    (∀ j : String, j ≠ "left" → j ≠ "right" → j ≠ "center" → j ≠ "full" →
      set_justification j = ([], ["Error: " ++ j ++ " invalid justification value."])) := by
  refine ⟨fun n => rfl, fun j h1 h2 h3 h4 => ?_⟩
  simp [set_justification, h1, h2, h3, h4]

/-- Witness: the amended C3 theorem applied at `n = 200` and `j = "justify"`. -/
theorem codec_unvalidated_behavior_witness :
    set_page_length_lines 200 = ([27, 67, 200], []) ∧
    set_justification "justify" =
      ([], ["Error: " ++ "justify" ++ " invalid justification value."]) :=
  ⟨codec_unvalidated_behavior.1 200,
   codec_unvalidated_behavior.2 "justify" (by decide) (by decide) (by decide) (by decide)⟩

/-- A bitmap as read through `PIL.Image` in `write_image`
(`ESCPdriver.py` lines 606-636): a `width × height` grid together with
the ink predicate; `black col y = true` models `image.getpixel((col, y))`
being the black value (`pixel[0] == 0` resp. `pixel == 0`). -/
structure Bitmap where
  width : Nat
  height : Nat
  black : Nat → Nat → Bool

/-- The guarded pixel test of the inner loop (`ESCPdriver.py` lines
620-632): a pixel contributes ink only when `xy[1] < image.height`
and the pixel value is black. -/
def inkBit (img : Bitmap) (col y : Nat) : Bool :=
  decide (y < img.height) && img.black col y

/-- The inner accumulation loop `for i in range(0, 8): if ...:
val += 2**(7-i)` (`ESCPdriver.py` lines 618-632), abstracted over the
per-slice-row ink test. -/
def packColumn (b : Nat → Bool) : Nat :=
  (List.range 8).foldl (fun val i => if b i then val + 2 ^ (7 - i) else val) 0

/-- `packColumn` specialised to its eight inspected values. -/
def packColumn8 (b0 b1 b2 b3 b4 b5 b6 b7 : Bool) : Nat :=
  packColumn fun i => [b0, b1, b2, b3, b4, b5, b6, b7].getD i false

theorem packColumn_eq8 (b : Nat → Bool) :
    packColumn b = packColumn8 (b 0) (b 1) (b 2) (b 3) (b 4) (b 5) (b 6) (b 7) := rfl

theorem packColumn8_testBit :
    ∀ (b0 b1 b2 b3 b4 b5 b6 b7 : Bool) (j : Fin 8),
      Nat.testBit (packColumn8 b0 b1 b2 b3 b4 b5 b6 b7) j.val =
        [b0, b1, b2, b3, b4, b5, b6, b7].getD (7 - j.val) false := by
  decide

/-- The byte emitted for pixel column `col` of band `row`
(`ESCPdriver.py` lines 618-632). -/
def columnByte (img : Bitmap) (col row : Nat) : Nat :=
  packColumn fun i => inkBit img col (row * 8 + i)

theorem packColumn8_testBit_nat (b0 b1 b2 b3 b4 b5 b6 b7 : Bool) (j : Nat) (hj : j < 8) :
    Nat.testBit (packColumn8 b0 b1 b2 b3 b4 b5 b6 b7) j =
      [b0, b1, b2, b3, b4, b5, b6, b7].getD (7 - j) false :=
  packColumn8_testBit b0 b1 b2 b3 b4 b5 b6 b7 ⟨j, hj⟩

/-- Bit `j` of an emitted column byte is the ink test of slice row
`7 - j`: bit 7 is the top pixel of the 8-pixel slice. -/
theorem columnByte_testBit (img : Bitmap) (col row j : Nat) (hj : j < 8) :
    Nat.testBit (columnByte img col row) j = inkBit img col (row * 8 + (7 - j)) := by
  simp only [columnByte, packColumn_eq8]
  rw [packColumn8_testBit_nat _ _ _ _ _ _ _ _ j hj]
  interval_cases j <;> rfl

/-- A 1-wide, 8-tall bitmap whose only black pixel is the top one. -/
def topBlack : Bitmap :=
  { width := 1, height := 8, black := fun _ y => y == 0 }

/-- An 8×8 fully black bitmap. -/
def img8 : Bitmap :=
  { width := 8, height := 8, black := fun _ _ => true }

/-- C4 counterexample: for the bitmap whose only black pixel is the top
pixel of the slice, the claim (bit 0 = top) predicts bit 0 of the
emitted byte to be set, but the code emits `128` (bit 7 set, bit 0
clear). -/
theorem column_bit_order_cex :
    inkBit topBlack 0 0 = true ∧
    columnByte topBlack 0 0 = 128 ∧
    Nat.testBit (columnByte topBlack 0 0) 0 = false ∧
    Nat.testBit (columnByte topBlack 0 0) 7 = true := by
  decide

/-- C4 amended: each emitted column byte has bit `j` set exactly when
the pixel in row `7 - j` of that byte's 8-pixel vertical slice is black
(so bit 7, not bit 0, is the top pixel of the slice); a fully black 8×8
bitmap at single-byte density encodes each of its columns to the byte
`0xFF`. -/
theorem column_bit_order :
    (∀ (img : Bitmap) (col row j : Nat), j < 8 →
      Nat.testBit (columnByte img col row) j = inkBit img col (row * 8 + (7 - j))) ∧
    (∀ col : Nat, col < 8 → columnByte img8 col 0 = 255) := by
  refine ⟨fun img col row j hj => columnByte_testBit img col row j hj, fun col _ => rfl⟩

/-- Witness: the amended C4 theorem applied at `topBlack`, column 0,
band 0, bit 7, and at column 3 of the fully black 8×8 bitmap. -/
theorem column_bit_order_witness :
    Nat.testBit (columnByte topBlack 0 0) 7 = inkBit topBlack 0 (0 * 8 + (7 - 7)) ∧
    columnByte img8 3 0 = 255 :=
  ⟨column_bit_order.1 topBlack 0 0 7 (by decide), column_bit_order.2 3 (by decide)⟩

theorem inkBit_congr (img1 img2 : Bitmap) (col y : Nat)
    (hh : img1.height = img2.height)
    (hb : ∀ z, z < img1.height → img1.black col z = img2.black col z) :
    inkBit img1 col y = inkBit img2 col y := by
  unfold inkBit
  by_cases hy : y < img1.height
  · rw [hb y hy, hh]
  · rw [decide_eq_false hy, decide_eq_false (hh ▸ hy), Bool.false_and, Bool.false_and]

/-- C6: in a partial final band, pixel positions at or beyond the
bitmap's height never set an ink bit in the emitted byte, and the
emitted byte depends only on pixels inside the bitmap's bounds (the
pixel lookup is guarded by the `xy[1] < image.height` check). -/
theorem partial_band_safety :
    (∀ (img : Bitmap) (col row j : Nat), j < 8 → img.height ≤ row * 8 + (7 - j) →
      Nat.testBit (columnByte img col row) j = false) ∧
    (∀ (img1 img2 : Bitmap) (col row : Nat), img1.height = img2.height →
      (∀ z, z < img1.height → img1.black col z = img2.black col z) →
      columnByte img1 col row = columnByte img2 col row) := by
  constructor
  · intro img col row j hj hout
    rw [columnByte_testBit img col row j hj]
    unfold inkBit
    rw [decide_eq_false (by omega), Bool.false_and]
  · intro img1 img2 col row hh hb
    unfold columnByte
    congr 1
    funext i
    exact inkBit_congr img1 img2 col (row * 8 + i) hh hb

/-- Witness: C6 applied to `topBlack` (height 8) at band 1, whose slice
rows 8..15 all lie outside the bitmap, and to `topBlack` against a
variant that differs only at out-of-bounds rows. -/
theorem partial_band_safety_witness :
    Nat.testBit (columnByte topBlack 0 1) 0 = false ∧
    columnByte topBlack 0 0 =
      columnByte { width := 1, height := 8, black := fun _ y => y == 0 || y == 11 } 0 0 := by
  constructor
  · exact partial_band_safety.1 topBlack 0 1 0 (by decide) (by decide)
  · exact partial_band_safety.2 topBlack
      { width := 1, height := 8, black := fun _ y => y == 0 || y == 11 } 0 0 (by decide)
      (by decide)

/-- Mutable line-ending state of the adapter: the `NL` character
sequence and the `_hard_autofeed` flag, initialised in `__init__`
(`ESCPdriver.py` lines 76-77) to `(CR,)` and hardware autofeed on. -/
structure AdapterState where
  NL : List Nat
  hardAutofeed : Bool
  deriving DecidableEq

/-- The adapter state set up by `__init__` (`ESCPdriver.py` lines 76-77). -/
def initState : AdapterState := { NL := [13], hardAutofeed := true }

/-- `set_autofeed_method(method)` (`ESCPdriver.py` lines 200-221),
returning (new state, bytes transmitted, console messages printed).  No
branch of the method calls `putchar`, so the transmitted list is empty
in every case. -/
def set_autofeed_method (s : AdapterState) (m : String) :
    AdapterState × List Nat × List String :=
  if m = "hard" then ({ NL := [13], hardAutofeed := true }, [], [])
  else if m = "soft" then ({ NL := [13, 10], hardAutofeed := false }, [], [])
  else if m = "none" then ({ NL := [13], hardAutofeed := false }, [], [])
  else (s, [], ["Error: " ++ m ++ " is not a valid method."])

/-- The GPIOB value driven while strobing a byte (`putchar`,
`ESCPdriver.py` lines 96-99): all ones, with the active-low AUTOFEED
bit (bit 5) cleared exactly when hardware autofeed is enabled. -/
def strobeValB (hardAutofeed : Bool) : Nat :=
  if hardAutofeed then 255 ^^^ (1 <<< 5) else 255

/-- The AUTOFEED line is active low: it is asserted during strobing iff
bit 5 of the driven GPIOB value is 0. -/
def autofeedAsserted (s : AdapterState) : Bool :=
  !(Nat.testBit (strobeValB s.hardAutofeed) 5)

/-- `writeln(message)` (`ESCPdriver.py` lines 147-151): the message
bytes followed by the current `NL` sequence. -/
def writeln (s : AdapterState) (msg : List Nat) : List Nat :=
  msg ++ s.NL

/-- The printer commands emitted by `write_image` (`ESCPdriver.py`
lines 606-636), kept structured so that line-spacing effects and band
structure are visible; `cmdBytes` renders them to the transmitted
bytes. -/
inductive Cmd where
  | setSpacing (n : Nat)
  | unsetSpacing
  | graphics (m ncols : Nat)
  | data (v : Nat)
  | newline
  deriving DecidableEq

/-- Byte rendering of each command: `setSpacing n` is `ESC '3' n`
(`set_line_spacing`, lines 262-266), `unsetSpacing` is `ESC '2'`
(`unset_line_spacing`, lines 272-274, default 1/6-inch spacing),
`graphics m ncols` is `ESC '*' m ncols%256 ncols/256` (line 616),
`data v` the raw column byte, and `newline` the current `NL`. -/
def cmdBytes (nl : List Nat) : Cmd → List Nat
  | .setSpacing n => [27, 51, n]
  | .unsetSpacing => [27, 50]
  | .graphics m ncols => [27, 42, m, ncols % 256, ncols / 256]
  | .data v => [v]
  | .newline => nl

/-- `rows = image.height/8 + 1` (`ESCPdriver.py` line 612, Python 2
floor division). -/
def rows (img : Bitmap) : Nat := img.height / 8 + 1

/-- One band of `write_image` (`ESCPdriver.py` lines 616-634): the
graphics introducer `ESC '*' 5 cols%256 cols/256`, one data byte per
pixel column, then the line ending. -/
def bandCmds (img : Bitmap) (row : Nat) : List Cmd :=
  Cmd.graphics 5 img.width ::
    (((List.range img.width).map fun col => Cmd.data (columnByte img col row)) ++
      [Cmd.newline])

/-- `write_image` (`ESCPdriver.py` lines 606-636) as the sequence of
commands it emits: `set_line_spacing(24)` when `rows > 1`, the bands,
then `unset_line_spacing()` when `rows > 1`. -/
def write_image (img : Bitmap) : List Cmd :=
  (if 1 < rows img then [Cmd.setSpacing 24] else []) ++
    ((List.range (rows img)).flatMap fun row => bandCmds img row) ++
      (if 1 < rows img then [Cmd.unsetSpacing] else [])

/-- Byte stream of one band under the session's `NL` sequence. -/
def bandBytes (s : AdapterState) (img : Bitmap) (row : Nat) : List Nat :=
  (bandCmds img row).flatMap (cmdBytes s.NL)

/-- Full byte stream of `write_image` under the session's `NL`. -/
def write_image_bytes (s : AdapterState) (img : Bitmap) : List Nat :=
  (write_image img).flatMap (cmdBytes s.NL)

def isGraphics : Cmd → Bool
  | .graphics _ _ => true
  | _ => false

/-- Number of graphics-mode introducer commands, i.e. bands, emitted. -/
def numBands (img : Bitmap) : Nat := (write_image img).countP isGraphics

theorem countP_bandCmds (img : Bitmap) (row : Nat) :
    (bandCmds img row).countP isGraphics = 1 := by
  rw [bandCmds, List.countP_cons, List.countP_append]
  have h1 : ((List.range img.width).map fun col =>
      Cmd.data (columnByte img col row)).countP isGraphics = 0 := by
    rw [List.countP_eq_zero]
    intro c hc
    obtain ⟨x, _, rfl⟩ := List.mem_map.mp hc
    simp [isGraphics]
  simp [h1, isGraphics]

theorem countP_bind_bands (img : Bitmap) :
    ∀ l : List Nat, ((l.flatMap fun row => bandCmds img row).countP isGraphics) = l.length := by
  intro l
  induction l with
  | nil => simp
  | cons r l ih =>
    simp [List.flatMap_cons, List.countP_append, ih, countP_bandCmds]
    omega

/-- C5 evaluation: `write_image` emits `height/8 + 1` bands — one more
than `ceil(height/band)` whenever the band height divides the bitmap
height.  At the failing input (the 8×8 bitmap, band height 8) the code
emits 2 bands while the claim requires `ceil(8/8) = 1`. -/
theorem band_count_bug_eval :
    (∀ img : Bitmap, numBands img = img.height / 8 + 1) ∧
    numBands img8 = 2 ∧ (img8.height + 8 - 1) / 8 = 1 := by
  refine ⟨fun img => ?_, by decide, by decide⟩
  rw [numBands, write_image, List.countP_append, List.countP_append,
    countP_bind_bands img (List.range (rows img)), List.length_range]
  by_cases h : 1 < rows img
  · rw [if_pos h, if_pos h]
    simp [isGraphics, List.countP_cons, rows]
  · rw [if_neg h, if_neg h]
    simp [rows]

/-- Effect of one emitted command on the printer's line-spacing state,
in 1/216-inch units: `ESC '3' n` sets it to `n`, `ESC '2'` sets it to
the default 1/6 inch = 36/216 (`unset_line_spacing`, lines 272-274);
no other command emitted by `write_image` touches line spacing. -/
def spacingStep (s : Nat) : Cmd → Nat
  | .setSpacing n => n
  | .unsetSpacing => 36
  | _ => s

/-- Printer line-spacing state after interpreting a command stream,
starting from spacing `s`. -/
def applySpacing (s : Nat) (cs : List Cmd) : Nat := cs.foldl spacingStep s

theorem applySpacing_append (s : Nat) (l1 l2 : List Cmd) :
    applySpacing s (l1 ++ l2) = applySpacing (applySpacing s l1) l2 := by
  rw [applySpacing, applySpacing, applySpacing]
  exact List.foldl_append _ _ _ _

theorem applySpacing_dataMap (f : Nat → Nat) :
    ∀ (l : List Nat) (s : Nat),
      List.foldl spacingStep s (l.map fun c => Cmd.data (f c)) = s := by
  intro l
  induction l with
  | nil => intro s; rfl
  | cons a l ih => intro s; simp only [List.map_cons, List.foldl_cons]; exact ih s

theorem applySpacing_band (img : Bitmap) (row : Nat) (s : Nat) :
    applySpacing s (bandCmds img row) = s := by
  rw [bandCmds, applySpacing, List.foldl_cons, List.foldl_append,
    applySpacing_dataMap (fun col => columnByte img col row) (List.range img.width)]
  rfl

theorem applySpacing_bands (img : Bitmap) :
    ∀ (l : List Nat) (s : Nat), applySpacing s (l.flatMap fun row => bandCmds img row) = s := by
  intro l
  induction l with
  | nil => intro s; rfl
  | cons r l ih =>
    intro s
    rw [List.flatMap_cons, applySpacing_append, applySpacing_band]
    exact ih s

/-- A 1×16 all-white bitmap: `rows = 16/8 + 1 = 3`, a multi-band print. -/
def img16 : Bitmap :=
  { width := 1, height := 16, black := fun _ _ => false }

/-- C8 counterexample: printing the multi-band bitmap `img16` from a
session whose line spacing was previously 30/216 inch leaves the
spacing at the default 36/216 inch (`ESC '2'`), not at the previous
value 30; and a run interrupted after 5 commands (mid-bands) leaves the
spacing at 24, restoring nothing. -/
theorem spacing_restore_cex :
    applySpacing 30 (write_image img16) = 36 ∧
    ¬ applySpacing 30 (write_image img16) = 30 ∧
    applySpacing 30 (List.take 5 (write_image img16)) = 24 := by
  decide

/-- C8 amended: when more than one band is required, `write_image` sets
the line spacing to 24/216 inch (the band height) before the bands and,
if the run completes without interruption, sets it to the printer
default (1/6 inch), not to the previous value, afterwards; a run
interrupted after the first command leaves the 24/216 spacing in place;
a single-band print does not touch line spacing at all. -/
theorem write_image_spacing (img : Bitmap) (s : Nat) :
    (1 < rows img →
      applySpacing s (write_image img) = 36 ∧
      applySpacing s (List.take 1 (write_image img)) = 24) ∧
    (rows img = 1 → applySpacing s (write_image img) = s) := by
  constructor
  · intro hr
    rw [write_image, if_pos hr, if_pos hr]
    constructor
    · rw [applySpacing_append]
      rfl
    · rfl
  · intro hr
    rw [write_image, if_neg (by omega), if_neg (by omega), List.nil_append,
      List.append_nil]
    exact applySpacing_bands img (List.range (rows img)) s

/-- A 1×4 all-white bitmap: `rows = 4/8 + 1 = 1`, a single-band print. -/
def img4 : Bitmap :=
  { width := 1, height := 4, black := fun _ _ => false }

/-- Witness: the amended C8 theorem applied at the multi-band bitmap
`img16` with previous spacing 30, and at the single-band bitmap `img4`
with previous spacing 30. -/
theorem write_image_spacing_witness :
    (applySpacing 30 (write_image img16) = 36 ∧
      applySpacing 30 (List.take 1 (write_image img16)) = 24) ∧
    applySpacing 30 (write_image img4) = 30 :=
  ⟨(write_image_spacing img16 30).1 (by decide),
   (write_image_spacing img4 30).2 (by decide)⟩

/-- Every raster band's byte stream ends with the session's `NL`
sequence (`putchar( *(self.NL))` at `ESCPdriver.py` line 634). -/
theorem bandBytes_suffix (st : AdapterState) (img : Bitmap) (row : Nat) :
    st.NL <:+ bandBytes st img row := by
  refine ⟨[27, 42, 5, img.width % 256, img.width / 256] ++
    ((List.range img.width).map fun col => columnByte img col row), ?_⟩
  rw [bandBytes, bandCmds, List.flatMap_cons, List.flatMap_append]
  have hmap : (((List.range img.width).map fun col =>
      Cmd.data (columnByte img col row)).flatMap (cmdBytes st.NL)) =
      (List.range img.width).map fun col => columnByte img col row := by
    induction List.range img.width with
    | nil => rfl
    | cons a l ih => simp [List.flatMap_cons, ih, cmdBytes]
  rw [hmap]
  simp [cmdBytes]

/-- C9: after `set_autofeed_method 'soft'` every line-terminating
operation (`writeln`, and the end of each raster band) emits CR LF and
the autofeed line is not asserted during strobing; after `'hard'` it
emits CR only with the autofeed line asserted; after `'none'` it emits
CR only and the autofeed line is not asserted. -/
theorem autofeed_policy (s0 : AdapterState) (msg : List Nat) (img : Bitmap) (row : Nat) :
    ((set_autofeed_method s0 "soft").1.NL = [13, 10] ∧
      autofeedAsserted (set_autofeed_method s0 "soft").1 = false ∧
      writeln (set_autofeed_method s0 "soft").1 msg = msg ++ [13, 10] ∧
      [13, 10] <:+ bandBytes (set_autofeed_method s0 "soft").1 img row) ∧
    ((set_autofeed_method s0 "hard").1.NL = [13] ∧
      autofeedAsserted (set_autofeed_method s0 "hard").1 = true ∧
      writeln (set_autofeed_method s0 "hard").1 msg = msg ++ [13] ∧
      [13] <:+ bandBytes (set_autofeed_method s0 "hard").1 img row) ∧
    ((set_autofeed_method s0 "none").1.NL = [13] ∧
      autofeedAsserted (set_autofeed_method s0 "none").1 = false ∧
      writeln (set_autofeed_method s0 "none").1 msg = msg ++ [13] ∧
      [13] <:+ bandBytes (set_autofeed_method s0 "none").1 img row) := by
  have hs : (set_autofeed_method s0 "soft").1 = ⟨[13, 10], false⟩ := rfl
  have hh : (set_autofeed_method s0 "hard").1 = ⟨[13], true⟩ := rfl
  have hn : (set_autofeed_method s0 "none").1 = ⟨[13], false⟩ := rfl
  rw [hs, hh, hn]
  exact ⟨⟨rfl, by decide, rfl, bandBytes_suffix ⟨[13, 10], false⟩ img row⟩,
    ⟨rfl, by decide, rfl, bandBytes_suffix ⟨[13], true⟩ img row⟩,
    ⟨rfl, by decide, rfl, bandBytes_suffix ⟨[13], false⟩ img row⟩⟩

/-- C10: for any method string other than `'hard'`, `'soft'` and
`'none'`, `set_autofeed_method` leaves the line-ending state (`NL` and
the hardware-autofeed flag) unchanged, transmits nothing, and only
prints a diagnostic. -/
theorem autofeed_invalid_noop (s : AdapterState) (m : String)
    (hh : m ≠ "hard") (hs : m ≠ "soft") (hn : m ≠ "none") :
    set_autofeed_method s m = (s, [], ["Error: " ++ m ++ " is not a valid method."]) := by
  rw [set_autofeed_method, if_neg hh, if_neg hs, if_neg hn]

/-- Witness: C10 applied to the initial state and the invalid method
string `"fast"`. -/
theorem autofeed_invalid_noop_witness :
    set_autofeed_method initState "fast" =
      (initState, [], ["Error: " ++ "fast" ++ " is not a valid method."]) :=
  autofeed_invalid_noop initState "fast" (by decide) (by decide) (by decide)

/-- Outcome of the handshake loop of `putchar`: `ok` carries the
unconsumed status-poll and operator-decision oracles, `aborted` models
the `raise KeyboardInterrupt` on a declined fault, and `starved` means
an oracle ran out (the source loop would still be polling). -/
inductive PutRes where
  | ok (polls : List Status) (decs : List Bool)
  | aborted
  | starved
  deriving DecidableEq

/-- The wait-ready polling loop of `putchar` (`ESCPdriver.py` lines
103-123) for the byte `v`.  Each poll consumes one status from `polls`.
On a fault, one operator decision is consumed from `decs` (`true` =
resume): resuming executes `break` with `error` still set, so the outer
`while error` loop drives the data lines and strobes `v` again — one
more `v` in the returned strobe trace — before polling resumes;
declining raises `KeyboardInterrupt` (`aborted`).  On ready the loop
ends with both flags cleared. -/
def waitReady (v : Nat) : List Status → List Bool → List Nat × PutRes
  | [], _ => ([], .starved)
  | stt :: polls, decs =>
    match classify stt with
    | .fault =>
      match decs with
      | [] => ([], .starved)
      | d :: ds =>
        if d then ((v :: (waitReady v polls ds).1), (waitReady v polls ds).2)
        else ([], .aborted)
    | .ready => ([], .ok polls decs)
    | .wait => waitReady v polls decs

/-- `putchar(*values)` (`ESCPdriver.py` lines 84-123): for each value in
order, drive the data bus and strobe once (the leading `v` of its
trace), then run the wait-ready loop, which may strobe the same value
again on each fault-resume.  Returns the strobe trace (the sequence of
transmitted bytes, in order) and the final outcome. -/
def putchar : List Nat → List Status → List Bool → List Nat × PutRes
  | [], polls, decs => ([], .ok polls decs)
  | v :: vs, polls, decs =>
    match waitReady v polls decs with
    | (tr0, .ok polls1 decs1) =>
      ((v :: tr0) ++ (putchar vs polls1 decs1).1, (putchar vs polls1 decs1).2)
    | (tr0, .aborted) => (v :: tr0, .aborted)
    | (tr0, .starved) => (v :: tr0, .starved)

/-- `Blocks vs tr` holds when `tr` consists, in order, of one nonempty
consecutive run of each element of `vs`: no byte skipped, none
reordered, and repetitions only within a byte's own run. -/
inductive Blocks : List Nat → List Nat → Prop
  | nil : Blocks [] []
  | last (v : Nat) (vs tr : List Nat) : Blocks vs tr → Blocks (v :: vs) (v :: tr)
  | retry (v : Nat) (vs tr : List Nat) : Blocks (v :: vs) tr → Blocks (v :: vs) (v :: tr)

theorem waitReady_trace (v : Nat) :
    ∀ (polls : List Status) (decs : List Bool) (x : Nat),
      x ∈ (waitReady v polls decs).1 → x = v := by
  intro polls
  induction polls with
  | nil => intro decs x hx; simp [waitReady] at hx
  | cons stt polls ih =>
    intro decs x hx
    rcases hc : classify stt with _ | _ | _
    · rcases decs with _ | ⟨d, ds⟩
      · simp [waitReady, hc] at hx
      · rcases d with _ | _
        · simp [waitReady, hc] at hx
        · simp only [waitReady, hc, if_true] at hx
          rcases List.mem_cons.mp hx with rfl | hx2
          · rfl
          · exact ih ds x hx2
    · simp [waitReady, hc] at hx
    · simp only [waitReady, hc] at hx
      exact ih decs x hx

theorem waitReady_ok_length (v : Nat) :
    ∀ (polls : List Status) (decs : List Bool) (tr : List Nat)
      (p1 : List Status) (d1 : List Bool),
      waitReady v polls decs = (tr, .ok p1 d1) → tr.length + d1.length = decs.length := by
  intro polls
  induction polls with
  | nil => intro decs tr p1 d1 h; simp [waitReady] at h
  | cons stt polls ih =>
    intro decs tr p1 d1 h
    rcases hc : classify stt with _ | _ | _
    · rcases decs with _ | ⟨d, ds⟩
      · simp [waitReady, hc] at h
      · rcases d with _ | _
        · simp [waitReady, hc] at h
        · simp only [waitReady, hc, if_true, Prod.mk.injEq] at h
          obtain ⟨h1, h2⟩ := h
          subst h1
          have hrec := ih ds (waitReady v polls ds).1 p1 d1 (by rw [← h2])
          simp only [List.length_cons]
          omega
    · simp only [waitReady, hc, Prod.mk.injEq, PutRes.ok.injEq] at h
      obtain ⟨h1, h2, h3⟩ := h
      subst h1
      subst h3
      simp
    · simp only [waitReady, hc] at h
      exact ih decs tr p1 d1 h

theorem blocks_run (v : Nat) :
    ∀ (tr0 : List Nat), (∀ x ∈ tr0, x = v) →
      ∀ (vs tr1 : List Nat), Blocks vs tr1 → Blocks (v :: vs) (v :: (tr0 ++ tr1)) := by
  intro tr0
  induction tr0 with
  | nil => intro _ vs tr1 hb; exact Blocks.last v vs tr1 hb
  | cons x tr0 ih =>
    intro hx vs tr1 hb
    have hxv : x = v := hx x (List.mem_cons_self x tr0)
    subst hxv
    exact Blocks.retry x vs _ (ih (fun y hy => hx y (List.mem_cons_of_mem x hy)) vs tr1 hb)

/-- C7 amended: on a fault the resuming caller makes `putchar` loop back
to the data-set/strobe step, so the faulted byte is strobed again; a
completed `putchar` transmits its bytes in order as one nonempty
consecutive run each — no byte skipped or reordered — and the total
number of strobes is the number of bytes plus the number of fault-resume
decisions consumed, so no byte other than one that faulted is ever
transmitted more than once. -/
theorem putchar_retry_blocks :
    ∀ (values : List Nat) (polls : List Status) (decs : List Bool) (tr : List Nat)
      (p1 : List Status) (d1 : List Bool),
      putchar values polls decs = (tr, .ok p1 d1) →
      Blocks values tr ∧ tr.length + d1.length = values.length + decs.length := by
  intro values
  induction values with
  | nil =>
    intro polls decs tr p1 d1 h
    simp only [putchar, Prod.mk.injEq, PutRes.ok.injEq] at h
    obtain ⟨h1, h2, h3⟩ := h
    subst h1
    subst h3
    exact ⟨Blocks.nil, by simp⟩
  | cons v vs ih =>
    intro polls decs tr p1 d1 h
    rcases hw : waitReady v polls decs with ⟨tr0, r0⟩
    have htr0 : ∀ x ∈ tr0, x = v := by
      intro x hx
      exact waitReady_trace v polls decs x (by rw [hw]; exact hx)
    rcases r0 with ⟨p2, d2⟩ | _ | _
    · rcases hput : putchar vs p2 d2 with ⟨tr1, r1⟩
      simp only [putchar, hw, hput, Prod.mk.injEq] at h
      obtain ⟨h1, h2⟩ := h
      subst h1
      subst h2
      have hih := ih p2 d2 tr1 p1 d1 hput
      have hlen0 := waitReady_ok_length v polls decs tr0 p2 d2 hw
      refine ⟨?_, ?_⟩
      · have hb := blocks_run v tr0 htr0 vs tr1 hih.1
        simpa using hb
      · have := hih.2
        simp only [List.cons_append, List.length_cons, List.length_append]
        omega
    · simp [putchar, hw] at h
    · simp [putchar, hw] at h

/-- A fault snapshot: paper end reported. -/
def faultS : Status := ⟨true, false, true, true, true⟩

/-- A ready snapshot: not busy, ack high, no fault condition. -/
def readyS : Status := ⟨true, false, false, true, true⟩

/-- C7 counterexample: with one byte, a first poll observing a Fault, a
resume decision, and a second poll observing Ready, the engine loops
back to the data-set/strobe step and transmits the byte a second time:
the strobe trace is `[65, 65]`, not the `[65]` that looping back only to
the wait-ready polling step (step 5) would produce. -/
theorem putchar_retry_restrobes_cex :
    classify faultS = .fault ∧
    putchar [65] [faultS, readyS] [true] = ([65, 65], .ok [] []) ∧
    (putchar [65] [faultS, readyS] [true]).1 ≠ [65] := by
  refine ⟨by decide, by decide, by decide⟩

/-- Witness: the amended C7 theorem applied to a concrete fault-free
two-byte run. -/
theorem putchar_retry_blocks_witness :
    Blocks [65, 66] [65, 66] ∧
      ([65, 66] : List Nat).length + ([] : List Bool).length =
        ([65, 66] : List Nat).length + ([] : List Bool).length :=
  putchar_retry_blocks [65, 66] [readyS, readyS] [] [65, 66] [] [] (by decide)

end ESCP
